/-
  Verification of the agent-activity-viz core against its specification.

  Shallow embedding of:
  - src/server/DataCollector.ts   (snapshot diffing: state changes, model
    switches, token deltas, tool usage, status classification)
  - src/client/hooks/useWebSocket.ts  (frame validation, event buffer,
    activity fold, reconnect backoff)
  - src/server/AgentActivityStreamer.ts  (client registry, heartbeat
    probe/eviction, welcome event)

  JS numbers that the code only ever treats as integers (timestamps in
  milliseconds, token counts) are embedded as Int; fractional context
  percentages are embedded as Rat.  The WebSocket handle itself is not
  embedded; the registry entries keep only the observable fields.
-/
import Mathlib

namespace AgentViz

/-- Agent status, `'active' | 'idle' | 'ended'` in the source. -/
inductive AgentStatus where
  | active
  | idle
  | ended
deriving DecidableEq, Repr

/-- One dashboard session record (interface AgentSession in DataCollector.ts);
only the fields the diffing core reads are relevant, but all are kept. -/
structure AgentSession where
  sessionId : String
  agentId : String
  agentName : String
  model : String
  totalTokens : Int
  contextPct : Rat
  lastActivity : String
  updatedAt : Int
  type : String
  label : Option String := none
  agent : Option String := none
deriving DecidableEq, Repr

/-- interface AgentState in DataCollector.ts. -/
structure AgentState where
  agentId : String
  agentName : String
  status : AgentStatus
  currentModel : String
  totalTokens : Int
  contextPct : Rat
  lastActivity : String
  sessions : List AgentSession
  toolsUsed : List String
  skills : List String
deriving DecidableEq, Repr

/-- interface TokenUsageDelta in DataCollector.ts. -/
structure TokenUsageDelta where
  agentId : String
  previousTokens : Int
  currentTokens : Int
  delta : Int
  timestamp : String
deriving DecidableEq, Repr

/-- interface ModelSwitchEvent in DataCollector.ts. -/
structure ModelSwitchEvent where
  agentId : String
  previousModel : String
  currentModel : String
  timestamp : String
deriving DecidableEq, Repr

/-- interface AgentStateChange in DataCollector.ts
(`previousState` is null for newly seen agents). -/
structure AgentStateChange where
  agentId : String
  previousState : Option AgentStatus
  currentState : AgentStatus
  timestamp : String
deriving DecidableEq, Repr

/-- interface ToolUsage in DataCollector.ts. -/
structure ToolUsage where
  agentId : String
  toolName : String
  callCount : Int
  lastUsed : String
deriving DecidableEq, Repr

/-- interface DataCollectorSnapshot in DataCollector.ts. -/
structure DataCollectorSnapshot where
  timestamp : String
  agents : List AgentState
  totalSessions : Int
  totalTokens : Int
deriving DecidableEq, Repr

/-! ### The `previousAgentStates` map

`DataCollector.previousAgentStates` is a JS `Map<string, AgentState>`.
A JS Map preserves insertion order and `set` on an existing key replaces
the value in place.  It is embedded as an association list with exactly
those operations. -/

/-- JS `Map.set`: replace in place if the key is present, else append. -/
def mapSet {α : Type} (m : List (String × α)) (k : String) (v : α) :
    List (String × α) :=
  if m.any (fun p => p.fst == k) then
    m.map (fun p => if p.fst == k then (k, v) else p)
  else
    m ++ [(k, v)]

/-- JS `Map.get` (None plays `undefined`). -/
def mapGet {α : Type} (m : List (String × α)) (k : String) : Option α :=
  (m.find? (fun p => p.fst == k)).map Prod.snd

/-- The `previousAgentStates` map as `takeSnapshot` builds it:
`for (const agent of agents) this.previousAgentStates.set(agent.agentId, {...agent})`. -/
def buildPrevMap (agents : List AgentState) : List (String × AgentState) :=
  agents.foldl (fun m a => mapSet m a.agentId a) []

/-! ### DataCollector diffing functions

Each function takes the `previousAgentStates` map explicitly instead of
reading it from `this`, and the wall-clock string `now` explicitly instead
of calling `new Date().toISOString()`. -/

/-- DataCollector.determineAgentStatus (Date.now() hoisted to a parameter). -/
def determineAgentStatus (now : Int) (lastUpdateTime : Int)
    (hasActiveSessions : Bool) : AgentStatus :=
  let fiveMinutesAgo := now - 5 * 60 * 1000
  let oneHourAgo := now - 60 * 60 * 1000
  if hasActiveSessions && decide (lastUpdateTime > fiveMinutesAgo) then
    .active
  else if lastUpdateTime > oneHourAgo then
    .idle
  else
    .ended

/-- DataCollector.detectStateChanges: first loop over `currentStates`
(new agents and status transitions), then loop over `previousAgentStates`
(agents that disappeared and were not already ended). -/
def detectStateChanges (previousAgentStates : List (String × AgentState))
    (currentStates : List AgentState) (now : String) : List AgentStateChange :=
  let newOrUpdated := currentStates.filterMap (fun currentState =>
    match mapGet previousAgentStates currentState.agentId with
    | none =>
      some { agentId := currentState.agentId, previousState := none,
             currentState := currentState.status, timestamp := now }
    | some previousState =>
      if previousState.status ≠ currentState.status then
        some { agentId := currentState.agentId,
               previousState := some previousState.status,
               currentState := currentState.status, timestamp := now }
      else none)
  let endedAgents := previousAgentStates.filterMap (fun entry =>
    if currentStates.all (fun s => !(s.agentId == entry.fst))
        && !(entry.snd.status == .ended) then
      some { agentId := entry.fst, previousState := some entry.snd.status,
             currentState := .ended, timestamp := now }
    else none)
  newOrUpdated ++ endedAgents

/-- DataCollector.calculateTokenDeltas. -/
def calculateTokenDeltas (previousAgentStates : List (String × AgentState))
    (currentStates : List AgentState) (now : String) : List TokenUsageDelta :=
  currentStates.filterMap (fun currentState =>
    match mapGet previousAgentStates currentState.agentId with
    | none => none
    | some previousState =>
      let delta := currentState.totalTokens - previousState.totalTokens
      if delta ≠ 0 then
        some { agentId := currentState.agentId,
               previousTokens := previousState.totalTokens,
               currentTokens := currentState.totalTokens,
               delta := delta, timestamp := now }
      else none)

/-- DataCollector.detectModelSwitches. -/
def detectModelSwitches (previousAgentStates : List (String × AgentState))
    (currentStates : List AgentState) (now : String) : List ModelSwitchEvent :=
  currentStates.filterMap (fun currentState =>
    match mapGet previousAgentStates currentState.agentId with
    | none => none
    | some previousState =>
      if previousState.currentModel ≠ currentState.currentModel then
        some { agentId := currentState.agentId,
               previousModel := previousState.currentModel,
               currentModel := currentState.currentModel, timestamp := now }
      else none)

/-- DataCollector.getToolUsage: one ToolUsage record per tool name in each
current state's `toolsUsed`; the previous snapshot is not consulted and
`callCount` is the constant 1 (the source comment says "Simplified"). -/
def getToolUsage (currentStates : List AgentState) (now : String) :
    List ToolUsage :=
  currentStates.flatMap (fun state =>
    state.toolsUsed.map (fun toolName =>
      { agentId := state.agentId, toolName := toolName,
        callCount := 1, lastUsed := now }))

/-! ### JSON values

The client receives text frames and runs them through `JSON.parse`.
A frame is embedded as `Option Json`: `none` is a frame whose text is not
valid JSON (`JSON.parse` throws and `parseMessage` catches), `some j` is a
frame that parsed to the JSON value `j`.  Numbers are embedded as `Int`
(the protocol carries counts and token figures). -/

inductive Json where
  | null
  | bool (b : Bool)
  | num (n : Int)
  | str (s : String)
  | arr (elems : List Json)
  | obj (fields : List (String × Json))

/-- JS property access `j[k]`: a field of an object, `undefined` (`none`)
otherwise.  Accessing a property of `null` throws in JS; the only access
sites are inside `parseMessage`'s try/catch, where a throw and an
`undefined` lead to the same rejection, so both are `none` here. -/
def jsGet (j : Json) (k : String) : Option Json :=
  match j with
  | .obj fields => (fields.find? (fun p => p.fst == k)).map Prod.snd
  | _ => none

/-- JS truthiness of a JSON value (`NaN` does not arise with Int numbers). -/
def truthy : Json → Bool
  | .null => false
  | .bool b => b
  | .num n => n != 0
  | .str s => s != ""
  | .arr _ => true
  | .obj _ => true

/-- JS `typeof` on a JSON value; note `typeof null` and `typeof []`
are both "object". -/
def typeofStr : Json → String
  | .null => "object"
  | .bool _ => "boolean"
  | .num _ => "number"
  | .str _ => "string"
  | .arr _ => "object"
  | .obj _ => "object"

/-! ### useWebSocket.ts: frame validation and the client fold -/

/-- type AgentEventType in useWebSocket.ts (the fixed closed set). -/
inductive AgentEventType where
  | agent_started
  | agent_ended
  | tool_called
  | model_switched
  | token_update
  | heartbeat
deriving DecidableEq, Repr

/-- The `validEventTypes` array in `parseMessage`, as the partial decoding
of an `eventType` string; `isSome` is exactly `validEventTypes.includes`. -/
def toEventType (s : String) : Option AgentEventType :=
  if s == "agent_started" then some .agent_started
  else if s == "agent_ended" then some .agent_ended
  else if s == "tool_called" then some .tool_called
  else if s == "model_switched" then some .model_switched
  else if s == "token_update" then some .token_update
  else if s == "heartbeat" then some .heartbeat
  else none

/-- interface AgentEvent in useWebSocket.ts (also the server's wire event
shape in AgentActivityStreamer.ts): the accepted envelope. -/
structure AgentEvent where
  timestamp : String
  agentId : String
  eventType : AgentEventType
  payload : Json

/-- Field extraction step of `parseMessage`: the four property reads.
`none` when `timestamp`, `agentId` or `eventType` is absent or not of JS
typeof "string", or `payload` is absent — each of which makes one of the
source's guard clauses return null.  The remaining guards (falsy empty
strings, payload typeof, closed set) stay in `parseMessage`. -/
def frameFields (parsed : Json) : Option (String × String × String × Json) :=
  match jsGet parsed "timestamp", jsGet parsed "agentId",
        jsGet parsed "eventType", jsGet parsed "payload" with
  | some (.str ts), some (.str aid), some (.str et), some pl =>
    some (ts, aid, et, pl)
  | _, _, _, _ => none

/-- Function `parseMessage` in useWebSocket.ts.  The source checks, in order,
`!parsed.timestamp || typeof parsed.timestamp !== 'string'` (and the same
for `agentId`, `eventType`), `!parsed.payload || typeof parsed.payload
!== 'object'`, then `validEventTypes.includes(parsed.eventType)`.
Because `!x` rejects every falsy value, an empty string fails the
`timestamp`/`agentId`/`eventType` checks even though its typeof is
"string", and `null` fails the `payload` check even though its typeof is
"object".  The result is `none` exactly when the source returns `null`. -/
def parseMessage (data : Option Json) : Option AgentEvent :=
  match data with
  | none => none
  | some parsed =>
    match frameFields parsed with
    | none => none
    | some (ts, aid, et, pl) =>
      if ts == "" then none
      else if aid == "" then none
      else if et == "" then none
      else if !(truthy pl && typeofStr pl == "object") then none
      else
        match toEventType et with
        | some ety => some { timestamp := ts, agentId := aid,
                             eventType := ety, payload := pl }
        | none => none

/-- tokenUsage field of interface AgentActivity in useWebSocket.ts. -/
structure ClientTokenUsage where
  input : Int
  output : Int
deriving DecidableEq, Repr

/-- interface AgentActivity in useWebSocket.ts (the client-side view of
one agent, built by folding the event stream). -/
structure AgentActivity where
  agentId : String
  status : AgentStatus
  lastSeen : String
  toolsUsed : List String
  currentModel : Option String := none
  tokenUsage : Option ClientTokenUsage := none
deriving DecidableEq, Repr

/-- The unchecked cast `event.payload.tool as string` (same for `model`):
the stored value when the field is a string; a missing or non-string field
is stored as-is by the source (the cast does not convert), which is
modelled by the sentinel "undefined". -/
def jsAsString (v : Option Json) : String :=
  match v with
  | some (.str s) => s
  | _ => "undefined"

/-- The expression `event.payload.input as number || 0`: the number when the field is a
numeric value (`0 || 0` is still 0), else 0 (a missing field is
`undefined`, which is falsy). -/
def numOr0 (v : Option Json) : Int :=
  match v with
  | some (.num n) => n
  | _ => 0

/-- Function `updateActivities` in useWebSocket.ts: the functional state update
applied to the activities map for one accepted event.  Events whose
`agentId` is "system" are skipped before any lookup. -/
def updateActivities (activities : List (String × AgentActivity))
    (event : AgentEvent) : List (String × AgentActivity) :=
  if event.agentId == "system" then activities
  else
    let existing := mapGet activities event.agentId
    match event.eventType with
    | .agent_started =>
      mapSet activities event.agentId
        { agentId := event.agentId, status := .active,
          lastSeen := event.timestamp, toolsUsed := [],
          tokenUsage := some { input := 0, output := 0 } }
    | .agent_ended =>
      match existing with
      | some ex =>
        mapSet activities event.agentId
          { ex with status := .ended, lastSeen := event.timestamp }
      | none => activities
    | .tool_called =>
      match existing with
      | some ex =>
        let toolName := jsAsString (jsGet event.payload "tool")
        let toolsUsed := if ex.toolsUsed.contains toolName then ex.toolsUsed
                         else ex.toolsUsed ++ [toolName]
        mapSet activities event.agentId
          { ex with toolsUsed := toolsUsed, status := .active,
                    lastSeen := event.timestamp }
      | none => activities
    | .model_switched =>
      match existing with
      | some ex =>
        mapSet activities event.agentId
          { ex with currentModel := some (jsAsString (jsGet event.payload "model")),
                    status := .active, lastSeen := event.timestamp }
      | none => activities
    | .token_update =>
      match existing with
      | some ex =>
        mapSet activities event.agentId
          { ex with tokenUsage := some { input := numOr0 (jsGet event.payload "input"),
                                         output := numOr0 (jsGet event.payload "output") },
                    status := .active, lastSeen := event.timestamp }
      | none => activities
    | .heartbeat => activities

/-- Constant `MAX_EVENTS` in useWebSocket.ts. -/
def MAX_EVENTS : Nat := 100

/-- The buffer update in `handleMessage`:
`[...prevEvents, parsed].slice(-MAX_EVENTS)`.  `Array.slice(-n)` keeps the
last `n` elements (all of them when fewer), which is `drop (length - n)`
with truncated subtraction. -/
def pushEvent (events : List AgentEvent) (e : AgentEvent) : List AgentEvent :=
  let newEvents := events ++ [e]
  newEvents.drop (newEvents.length - MAX_EVENTS)

/-- The client state that `handleMessage` updates: the retained event
buffer and the activities map (ClientActivityView). -/
structure ClientState where
  activities : List (String × AgentActivity)
  events : List AgentEvent

/-- Function `handleMessage` in useWebSocket.ts: parse, silently drop on failure,
otherwise append to the bounded buffer and fold into the activities map. -/
def handleMessage (st : ClientState) (data : Option Json) : ClientState :=
  match parseMessage data with
  | none => st
  | some parsed =>
    { activities := updateActivities st.activities parsed,
      events := pushEvent st.events parsed }

/-! ### useWebSocket.ts: reconnect backoff -/

/-- Constant `RECONNECT_BASE_DELAY` in useWebSocket.ts. -/
def RECONNECT_BASE_DELAY : Nat := 1000

/-- Constant `RECONNECT_MAX_DELAY` in useWebSocket.ts. -/
def RECONNECT_MAX_DELAY : Nat := 30000

/-- Function `getReconnectDelay` in useWebSocket.ts:
`Math.min(RECONNECT_BASE_DELAY * Math.pow(2, attempts), RECONNECT_MAX_DELAY)`
with `attempts = reconnectAttemptsRef.current`. -/
def getReconnectDelay (attempts : Nat) : Nat :=
  min (RECONNECT_BASE_DELAY * 2 ^ attempts) RECONNECT_MAX_DELAY

/-- The `ws.onclose` handler's scheduling loop under consecutive immediate
failures: each failure computes `getReconnectDelay()` at the current
attempts counter and then increments the counter
(`reconnectAttemptsRef.current += 1`).  `simulateFailures a n` is the list
of the delays scheduled by `n` consecutive failures starting from counter
value `a` (the counter is 0 after a successful open). -/
def simulateFailures (attempts : Nat) : Nat → List Nat
  | 0 => []
  | n + 1 => getReconnectDelay attempts :: simulateFailures (attempts + 1) n

/-! ### AgentActivityStreamer.ts: client registry and heartbeat probing

The WebSocket handle is external; a registry entry keeps the observable
fields of interface ClientInfo (`id`, `isAlive`, `connectedAt`).  The
heartbeat interval body walks the registry: an entry whose `isAlive` flag
is still false is terminated and removed; every surviving entry is marked
not alive and pinged.  The `pong` handler registered in `addClient` sets
the entry's flag back to true.  A tick and a pong arrival are the two
observable registry events between which the two-strike question is
decided. -/

structure ClientInfo where
  id : String
  isAlive : Bool
  connectedAt : String
deriving DecidableEq, Repr

/-- One registry event: a heartbeat-interval tick, or a pong received from
the client with the given id. -/
inductive ProbeEvent where
  | tick
  | pong (clientId : String)

/-- The heartbeat interval body of `startHeartbeat`: evict entries whose
flag is false (`ws.terminate(); removeClient`), then mark the survivors
not alive and ping them (the ping itself is assumed to be deliverable; a
throwing ping also evicts, which only evicts more). -/
def heartbeatTick (clients : List ClientInfo) : List ClientInfo :=
  (clients.filter (fun c => c.isAlive)).map (fun c => { c with isAlive := false })

/-- The `pong` handler installed by `addClient`: set the entry's flag back
to true (a pong from an already-removed client finds no entry and does
nothing). -/
def pongHandler (clients : List ClientInfo) (clientId : String) :
    List ClientInfo :=
  clients.map (fun c => if c.id == clientId then { c with isAlive := true } else c)

/-- One registry step. -/
def stepProbe (clients : List ClientInfo) : ProbeEvent → List ClientInfo
  | .tick => heartbeatTick clients
  | .pong clientId => pongHandler clients clientId

/-- Run a sequence of registry events. -/
def runProbe (clients : List ClientInfo) (events : List ProbeEvent) :
    List ClientInfo :=
  events.foldl stepProbe clients

/-- Run a sequence of registry events while counting the liveness probes
(pings) issued to the client with the given id: at each tick, a ping goes
to that client exactly when it survives the eviction pass, i.e. when some
entry with that id has its flag set. -/
def runProbeCount (clientId : String) (clients : List ClientInfo) :
    List ProbeEvent → List ClientInfo × Nat
  | [] => (clients, 0)
  | ev :: evs =>
    let pinged : Nat :=
      match ev with
      | .tick => if clients.any (fun c => c.id == clientId && c.isAlive) then 1 else 0
      | .pong _ => 0
    let rest := runProbeCount clientId (stepProbe clients ev) evs
    (rest.fst, pinged + rest.snd)

/-- The welcome message `addClient` sends to a freshly registered client:
a synthetic `agent_started` WireEvent with `agentId` "system". -/
def serverWelcomeEvent (ts : String) (clientId : String)
    (connectedClients : Int) : AgentEvent :=
  { timestamp := ts, agentId := "system", eventType := .agent_started,
    payload := .obj [("message", .str "Connected to Agent Activity Viz Server"),
                     ("clientId", .str clientId),
                     ("connectedClients", .num connectedClients)] }

/-- The periodic heartbeat broadcast of `startHeartbeat`: a `heartbeat`
WireEvent with `agentId` "system" (`uptime` is a wall-clock figure,
embedded as an integer parameter). -/
def serverHeartbeatEvent (ts : String) (connectedClients : Int)
    (uptime : Int) : AgentEvent :=
  { timestamp := ts, agentId := "system", eventType := .heartbeat,
    payload := .obj [("connectedClients", .num connectedClients),
                     ("uptime", .num uptime)] }

/-! ### Spec-side acceptance predicates and concrete fixtures -/

/-- The specification's acceptance condition as the claim states it: the
frame is valid JSON with a string `timestamp`, a string `agentId`, an
`eventType` drawn from the fixed closed set, and an object `payload`.
This is the spec's wording, to be compared against `parseMessage`. -/
def specAccepts (data : Option Json) : Bool :=
  match data with
  | none => false
  | some parsed =>
    match jsGet parsed "timestamp", jsGet parsed "agentId",
          jsGet parsed "eventType", jsGet parsed "payload" with
    | some (.str _), some (.str _), some (.str et), some (.obj _) =>
      (toEventType et).isSome
    | _, _, _, _ => false

/-- The amended acceptance condition: `timestamp` and `agentId` must be
non-empty strings (JS truthiness), `eventType` must be in the closed set,
and `payload` must be truthy with JS typeof "object" (a JSON object or a
JSON array; null is excluded by truthiness). -/
def amendedAccept (data : Option Json) : Bool :=
  match data with
  | none => false
  | some parsed =>
    match frameFields parsed with
    | none => false
    | some (ts, aid, et, pl) =>
      ts != "" && aid != "" && (toEventType et).isSome
        && truthy pl && typeofStr pl == "object"

/-- A concrete agent state, fields as in the repository's own test
fixtures, parameterized by the current model. -/
def mkTestAgent (model : String) : AgentState :=
  { agentId := "agent:test-agent", agentName := "test-agent",
    status := .active, currentModel := model, totalTokens := 1000,
    contextPct := 10, lastActivity := "2026-01-01T00:00:00.000Z",
    sessions := [], toolsUsed := [], skills := [] }

/-- A concrete agent state with one accumulated tool. -/
def agentWithTool : AgentState :=
  { mkTestAgent "k2p5" with toolsUsed := ["bash"] }

/-- A well-formed frame per the spec's wording whose `timestamp` is the
empty string (a string, but falsy in JS). -/
def emptyTimestampFrame : Json :=
  .obj [("timestamp", .str ""), ("agentId", .str "a"),
        ("eventType", .str "heartbeat"), ("payload", .obj [])]

/-- The spec's malformed-frame fixture: a frame missing `agentId`. -/
def missingAgentIdFrame : Json :=
  .obj [("timestamp", .str "2026-01-01T00:00:00.000Z"),
        ("eventType", .str "heartbeat"), ("payload", .obj [])]

/-- A concrete accepted wire event, indexed so that a sequence of them is
pairwise distinct. -/
def sampleEvent (i : Nat) : AgentEvent :=
  { timestamp := toString i, agentId := "agent:test-agent",
    eventType := .heartbeat, payload := .obj [] }

/-- An empty client state. -/
def emptyClientState : ClientState := { activities := [], events := [] }

/-! ## Helper lemmas on the association-list map -/

theorem filterMap_eq_nil_of {α β : Type} (f : α → Option β) (l : List α)
    (h : ∀ a ∈ l, f a = none) : l.filterMap f = [] := by
  induction l with
  | nil => rfl
  | cons x xs ih =>
    rw [List.filterMap_cons, h x (List.mem_cons_self x xs)]
    exact ih (fun a ha => h a (List.mem_cons_of_mem x ha))

theorem filter_filterMap_comm {α β : Type} (f : α → Option β) (q : β → Bool)
    (l : List α) :
    (l.filterMap f).filter q
      = l.filterMap (fun a =>
          match f a with
          | some b => if q b then some b else none
          | none => none) := by
  induction l with
  | nil => rfl
  | cons x xs ih =>
    rw [List.filterMap_cons, List.filterMap_cons]
    cases hx : f x with
    | none => simpa using ih
    | some b =>
      by_cases hq : q b = true
      · simp [List.filter_cons, hq, ih]
      · simp only [Bool.not_eq_true] at hq
        simp [List.filter_cons, hq, ih]

/-- A `filterMap` over a list whose keys are pairwise distinct, where the
function vanishes away from one distinguished element, collapses to that
element's image. -/
theorem filterMap_eq_of_unique_key {α β : Type} (key : α → String)
    (f : α → Option β) (l : List α) (hnd : (l.map key).Nodup) (p : α)
    (hp : p ∈ l) (hothers : ∀ q ∈ l, key q ≠ key p → f q = none) :
    l.filterMap f = (f p).toList := by
  induction l with
  | nil => cases hp
  | cons x xs ih =>
    rw [List.map_cons, List.nodup_cons] at hnd
    rcases List.mem_cons.mp hp with hpx | hpxs
    · subst hpx
      have htail : xs.filterMap f = [] := by
        apply filterMap_eq_nil_of
        intro a ha
        by_cases hk : key a = key p
        · exact absurd (hk ▸ List.mem_map_of_mem key ha) hnd.1
        · exact hothers a (List.mem_cons_of_mem _ ha) hk
      rw [List.filterMap_cons, htail]
      cases hfp : f p <;> simp
    · have hkx : key x ≠ key p := by
        intro hk
        exact hnd.1 (hk ▸ List.mem_map_of_mem key hpxs)
      rw [List.filterMap_cons, hothers x (List.mem_cons_self x xs) hkx]
      exact ih hnd.2 hpxs
        (fun q hq hne => hothers q (List.mem_cons_of_mem x hq) hne)

theorem append_left_nil_eq {α : Type} {l1 l2 r : List α} (h1 : l1 = [])
    (h2 : l2 = r) : l1 ++ l2 = r := by
  rw [h1, h2]
  rfl

theorem mapSet_of_not_any {α : Type} (m : List (String × α)) (k : String)
    (v : α) (h : m.any (fun p => p.fst == k) = false) :
    mapSet m k v = m ++ [(k, v)] := by
  simp [mapSet, h]

/-- With pairwise-distinct agent ids, the JS-Map construction of
`previousAgentStates` is plain keying by `agentId`. -/
theorem buildPrevMap_eq_keyed (agents : List AgentState)
    (hnd : (agents.map (fun a => a.agentId)).Nodup) :
    buildPrevMap agents = agents.map (fun a => (a.agentId, a)) := by
  have main : ∀ (l : List AgentState) (m : List (String × AgentState)),
      (l.map (fun a => a.agentId)).Nodup →
      (∀ p ∈ m, ∀ a ∈ l, p.fst ≠ a.agentId) →
      l.foldl (fun acc a => mapSet acc a.agentId a) m
        = m ++ l.map (fun a => (a.agentId, a)) := by
    intro l
    induction l with
    | nil => intro m _ _; simp
    | cons x xs ih =>
      intro m hnd hdisj
      rw [List.map_cons, List.nodup_cons] at hnd
      have hany : m.any (fun p => p.fst == x.agentId) = false := by
        rw [List.any_eq_false]
        intro p hp
        simpa using hdisj p hp x (List.mem_cons_self x xs)
      rw [List.foldl_cons, mapSet_of_not_any m x.agentId x hany,
        ih (m ++ [(x.agentId, x)]) hnd.2 ?_]
      · simp
      · intro p hp a ha
        rcases List.mem_append.mp hp with hpm | hpx
        · exact hdisj p hpm a (List.mem_cons_of_mem x ha)
        · have hpeq : p = (x.agentId, x) := by simpa using hpx
          subst hpeq
          intro heq
          apply hnd.1
          have heq2 : x.agentId = a.agentId := heq
          exact heq2 ▸ List.mem_map_of_mem (fun a => a.agentId) ha
  simpa using main agents [] hnd (by simp)

/-- With pairwise-distinct keys, looking an agent's own id up in the keyed
list finds that agent. -/
theorem mapGet_keyed_self (agents : List AgentState)
    (hnd : (agents.map (fun a => a.agentId)).Nodup) (a : AgentState)
    (ha : a ∈ agents) :
    mapGet (agents.map (fun b => (b.agentId, b))) a.agentId = some a := by
  induction agents with
  | nil => cases ha
  | cons x xs ih =>
    rw [List.map_cons, List.nodup_cons] at hnd
    rcases List.mem_cons.mp ha with hax | haxs
    · subst hax
      simp [mapGet, List.find?]
    · have hne : x.agentId ≠ a.agentId := by
        intro hk
        exact hnd.1 (hk ▸ List.mem_map_of_mem (fun b => b.agentId) haxs)
      have : (x.agentId == a.agentId) = false := by
        simpa using hne
      simp only [mapGet, List.map_cons, List.find?] at *
      rw [this]
      exact ih hnd.2 haxs

/-! ## C3 — status classification -/

/-- C3: for every `now`, `lastUpdateTime` and `hasLiveSessionRecords`, the
status classification returns `active` exactly when the boolean holds and
`now - lastUpdateTime < 5` minutes; otherwise `idle` exactly when
`now - lastUpdateTime < 60` minutes; otherwise `ended`. -/
theorem determineAgentStatus_spec (now lastUpdateTime : Int)
    (hasLiveSessionRecords : Bool) :
    (determineAgentStatus now lastUpdateTime hasLiveSessionRecords = .active
      ↔ (hasLiveSessionRecords = true ∧ now - lastUpdateTime < 5 * 60 * 1000))
    ∧ (determineAgentStatus now lastUpdateTime hasLiveSessionRecords = .idle
      ↔ (¬(hasLiveSessionRecords = true ∧ now - lastUpdateTime < 5 * 60 * 1000)
          ∧ now - lastUpdateTime < 60 * 60 * 1000))
    ∧ (determineAgentStatus now lastUpdateTime hasLiveSessionRecords = .ended
      ↔ (¬(hasLiveSessionRecords = true ∧ now - lastUpdateTime < 5 * 60 * 1000)
          ∧ ¬(now - lastUpdateTime < 60 * 60 * 1000))) := by
  unfold determineAgentStatus
  rcases hasLiveSessionRecords with _ | _
  all_goals by_cases h5 : lastUpdateTime > now - 5 * 60 * 1000
  all_goals by_cases h60 : lastUpdateTime > now - 60 * 60 * 1000
  all_goals simp [h5, h60]
  all_goals (split_ifs <;> (try simp_all) <;> omega)

/-! ## C4 — reconnect backoff -/

theorem simulateFailures_getElem (m a k : Nat) :
    (simulateFailures a m)[k]? =
      if k < m then some (getReconnectDelay (a + k)) else none := by
  induction m generalizing a k with
  | zero => simp [simulateFailures]
  | succ n ih =>
    cases k with
    | zero => simp [simulateFailures]
    | succ k2 =>
      simp only [simulateFailures, List.getElem?_cons_succ, ih (a + 1) k2,
        Nat.succ_lt_succ_iff]
      rw [Nat.add_assoc, Nat.add_comm 1 k2]

/-- C4: the delay scheduled on the n-th consecutive failed connection
(attempts counter n-1) is `min (1000 * 2^(n-1)) 30000` ms, and ten
consecutive immediate failures schedule the delays
1000, 2000, 4000, 8000, 16000, 30000, 30000, 30000, 30000, 30000. -/
theorem reconnectDelay_spec (m n : Nat) (h1 : 1 ≤ n) (h2 : n ≤ m) :
    (simulateFailures 0 m)[n - 1]? = some (min (1000 * 2 ^ (n - 1)) 30000)
    ∧ simulateFailures 0 10
        = [1000, 2000, 4000, 8000, 16000, 30000, 30000, 30000, 30000,
           30000] := by
  constructor
  · rw [simulateFailures_getElem, if_pos (by omega)]
    simp [getReconnectDelay, RECONNECT_BASE_DELAY, RECONNECT_MAX_DELAY]
  · rfl

/-- C4 witness: the sixth failure is the first capped delay. -/
theorem reconnectDelay_spec_witness :
    (simulateFailures 0 10)[5]? = some (min (1000 * 2 ^ 5) 30000)
    ∧ simulateFailures 0 10
        = [1000, 2000, 4000, 8000, 16000, 30000, 30000, 30000, 30000,
           30000] :=
  reconnectDelay_spec 10 6 (by decide) (by decide)

/-! ## C10 — "system" events never touch the activities map -/

/-- C10: folding any WireEvent whose agentId is "system" (the server's
synthetic welcome event and heartbeats included) leaves the
ClientActivityView unchanged, for every event type. -/
theorem updateActivities_system_noop
    (activities : List (String × AgentActivity)) (event : AgentEvent)
    (h : event.agentId = "system") :
    updateActivities activities event = activities := by
  have hb : (event.agentId == "system") = true := by simp [h]
  unfold updateActivities
  rw [hb]
  rfl

/-- C10 witness: the server's welcome event at registration leaves a
concrete view unchanged. -/
theorem updateActivities_system_noop_witness :
    updateActivities
      [("agent:test-agent",
        { agentId := "agent:test-agent", status := .active,
          lastSeen := "t0", toolsUsed := [] })]
      (serverWelcomeEvent "2026-01-01T00:00:00.000Z" "client-1" 1)
      = [("agent:test-agent",
          { agentId := "agent:test-agent", status := .active,
            lastSeen := "t0", toolsUsed := [] })] :=
  updateActivities_system_noop _ _ rfl

/-! ## C5 — heartbeat probing and eviction -/

theorem mem_heartbeatTick {clients : List ClientInfo} {c : ClientInfo}
    (h : c ∈ clients) (ha : c.isAlive = true) :
    { c with isAlive := false } ∈ heartbeatTick clients := by
  simp only [heartbeatTick, List.mem_map]
  exact ⟨c, List.mem_filter.mpr ⟨h, ha⟩, rfl⟩

theorem heartbeatTick_all_false (clients : List ClientInfo) :
    ∀ x ∈ heartbeatTick clients, x.isAlive = false := by
  intro x hx
  simp only [heartbeatTick, List.mem_map] at hx
  rcases hx with ⟨c, _, rfl⟩
  rfl

theorem heartbeatTick_nil_of_all_false {clients : List ClientInfo}
    (h : ∀ x ∈ clients, x.isAlive = false) : heartbeatTick clients = [] := by
  unfold heartbeatTick
  rw [List.filter_eq_nil_iff.mpr (fun a ha => by simp [h a ha])]
  rfl

/-- C5 counterexample: a single registered live channel that never pongs
is terminated at the second heartbeat cycle having been probed exactly
once — eviction after a single missed probe, not two. -/
theorem heartbeat_eviction_counterexample :
    runProbeCount "client-1"
      [{ id := "client-1", isAlive := true, connectedAt := "t0" }]
      [ProbeEvent.tick, ProbeEvent.tick] = ([], 1) := by
  rfl

/-- C5 (amended): a channel that misses a probe but pongs before the next
probe cycle starts is retained (marked suspect again), while a channel
that does not pong between two consecutive cycles is terminated at the
second cycle — after exactly one unacknowledged probe, the whole registry
emptying when nobody pongs. -/
theorem heartbeat_eviction_amended (clients : List ClientInfo)
    (c : ClientInfo) (hmem : c ∈ clients) (halive : c.isAlive = true) :
    ({ c with isAlive := false }
        ∈ runProbe clients [.tick, .pong c.id, .tick])
    ∧ runProbeCount c.id clients [.tick, .tick] = ([], 1) := by
  constructor
  · show { c with isAlive := false }
      ∈ heartbeatTick (pongHandler (heartbeatTick clients) c.id)
    have h1 : { c with isAlive := false } ∈ heartbeatTick clients :=
      mem_heartbeatTick hmem halive
    have h2 : { c with isAlive := true }
        ∈ pongHandler (heartbeatTick clients) c.id := by
      simp only [pongHandler, List.mem_map]
      refine ⟨{ c with isAlive := false }, h1, ?_⟩
      simp
    have h3 := mem_heartbeatTick h2 rfl
    exact h3
  · have hany : clients.any (fun x => x.id == c.id && x.isAlive) = true :=
      List.any_eq_true.mpr ⟨c, hmem, by simp [halive]⟩
    have hfalse := heartbeatTick_all_false clients
    have hany2 : (heartbeatTick clients).any
        (fun x => x.id == c.id && x.isAlive) = false := by
      rw [List.any_eq_false]
      intro x hx
      simp [hfalse x hx]
    have hnil : heartbeatTick (heartbeatTick clients) = [] :=
      heartbeatTick_nil_of_all_false hfalse
    simp [runProbeCount, stepProbe, hany, hany2, hnil]

/-- C5 witness: a concrete channel that pongs between cycles is retained;
one that does not is evicted after its single probe. -/
theorem heartbeat_eviction_amended_witness :
    ({ id := "client-1", isAlive := false, connectedAt := "t0" }
        ∈ runProbe [{ id := "client-1", isAlive := true, connectedAt := "t0" }]
            [.tick, .pong "client-1", .tick])
    ∧ runProbeCount "client-1"
        [{ id := "client-1", isAlive := true, connectedAt := "t0" }]
        [.tick, .tick] = ([], 1) :=
  heartbeat_eviction_amended _ _ (List.mem_singleton.mpr rfl) rfl

/-! ## C2 — model switch round trip -/

/-- C2 counterexample: for one agent whose model over four consecutive
snapshots is "unknown", "k2p5", "k2p5", "claude-sonnet", running the
detector on each consecutive pair emits two model-switch events in total,
not one: the code also counts unknown→k2p5 as a switch. -/
theorem modelSwitch_roundTrip_counterexample :
    (detectModelSwitches (buildPrevMap [mkTestAgent "unknown"])
        [mkTestAgent "k2p5"] "t"
      ++ detectModelSwitches (buildPrevMap [mkTestAgent "k2p5"])
          [mkTestAgent "k2p5"] "t"
      ++ detectModelSwitches (buildPrevMap [mkTestAgent "k2p5"])
          [mkTestAgent "claude-sonnet"] "t").length = 2 := by
  rfl

/-- C2 (amended): the snapshot sequence unknown→k2p5→k2p5→claude-sonnet
for a single agent yields exactly two model-switch events: one with
previousModel "unknown" and one k2p5→claude-sonnet. -/
theorem modelSwitch_roundTrip_amended (mkAgent : String → AgentState)
    (aid now : String) (hm : ∀ m, (mkAgent m).currentModel = m)
    (hid : ∀ m, (mkAgent m).agentId = aid) :
    detectModelSwitches (buildPrevMap [mkAgent "unknown"])
        [mkAgent "k2p5"] now
      ++ detectModelSwitches (buildPrevMap [mkAgent "k2p5"])
          [mkAgent "k2p5"] now
      ++ detectModelSwitches (buildPrevMap [mkAgent "k2p5"])
          [mkAgent "claude-sonnet"] now
    = [{ agentId := aid, previousModel := "unknown",
         currentModel := "k2p5", timestamp := now },
       { agentId := aid, previousModel := "k2p5",
         currentModel := "claude-sonnet", timestamp := now }] := by
  have hsingle : ∀ p c : AgentState, p.agentId = c.agentId →
      detectModelSwitches (buildPrevMap [p]) [c] now
        = if p.currentModel ≠ c.currentModel then
            [{ agentId := c.agentId, previousModel := p.currentModel,
               currentModel := c.currentModel, timestamp := now }]
          else [] := by
    intro p c hpc
    have hmap : buildPrevMap [p] = [(p.agentId, p)] := by
      simp [buildPrevMap, mapSet]
    have hget : mapGet [(p.agentId, p)] c.agentId = some p := by
      simp [mapGet, List.find?, hpc]
    simp only [detectModelSwitches, hmap, List.filterMap, hget]
    split_ifs <;> rfl
  rw [hsingle (mkAgent "unknown") (mkAgent "k2p5") (by simp [hid]),
    hsingle (mkAgent "k2p5") (mkAgent "k2p5") (by simp [hid]),
    hsingle (mkAgent "k2p5") (mkAgent "claude-sonnet") (by simp [hid])]
  simp [hm, hid]

/-- C2 witness: the two switch events at a concrete agent. -/
theorem modelSwitch_roundTrip_amended_witness :
    detectModelSwitches (buildPrevMap [mkTestAgent "unknown"])
        [mkTestAgent "k2p5"] "t"
      ++ detectModelSwitches (buildPrevMap [mkTestAgent "k2p5"])
          [mkTestAgent "k2p5"] "t"
      ++ detectModelSwitches (buildPrevMap [mkTestAgent "k2p5"])
          [mkTestAgent "claude-sonnet"] "t"
    = [{ agentId := "agent:test-agent", previousModel := "unknown",
         currentModel := "k2p5", timestamp := "t" },
       { agentId := "agent:test-agent", previousModel := "k2p5",
         currentModel := "claude-sonnet", timestamp := "t" }] :=
  modelSwitch_roundTrip_amended mkTestAgent "agent:test-agent" "t"
    (fun _ => rfl) (fun _ => rfl)

/-! ## C1 — detect(S, S) -/

/-- C1 counterexample: on a snapshot with one agent whose accumulated tool
set is nonempty, `detect(S, S)` yields empty lifecycle changes, model
switches and token deltas, but the tool-observation category is not empty:
`getToolUsage` reports every currently accumulated tool, ignoring the
previous snapshot. -/
theorem detect_self_counterexample :
    detectStateChanges (buildPrevMap [agentWithTool]) [agentWithTool] "t" = []
    ∧ detectModelSwitches (buildPrevMap [agentWithTool]) [agentWithTool] "t"
        = []
    ∧ calculateTokenDeltas (buildPrevMap [agentWithTool]) [agentWithTool] "t"
        = []
    ∧ getToolUsage [agentWithTool] "t"
        = [{ agentId := "agent:test-agent", toolName := "bash",
             callCount := 1, lastUsed := "t" }] := by
  refine ⟨rfl, rfl, rfl, rfl⟩

/-- C1 (amended): for any snapshot S (agent ids unique), `detect(S, S)`
yields empty lifecycle changes, model switches and token deltas, while the
tool-observation category is empty exactly when every agent's accumulated
tool set is empty (it reports each currently accumulated tool, without
comparing against the previous snapshot). -/
theorem detect_self_spec (agents : List AgentState) (now : String)
    (hnd : (agents.map (fun a => a.agentId)).Nodup) :
    detectStateChanges (buildPrevMap agents) agents now = []
    ∧ detectModelSwitches (buildPrevMap agents) agents now = []
    ∧ calculateTokenDeltas (buildPrevMap agents) agents now = []
    ∧ (getToolUsage agents now = [] ↔ ∀ a ∈ agents, a.toolsUsed = []) := by
  have hkey := buildPrevMap_eq_keyed agents hnd
  refine ⟨?_, ?_, ?_, ?_⟩
  · simp only [detectStateChanges, hkey]
    rw [List.append_eq_nil]
    constructor
    · apply filterMap_eq_nil_of
      intro c hc
      rw [mapGet_keyed_self agents hnd c hc]
      simp
    · apply filterMap_eq_nil_of
      intro e he
      rcases List.mem_map.mp he with ⟨a, ha, rfl⟩
      have hall : (agents.all fun s => !(s.agentId == a.agentId)) = false := by
        rw [List.all_eq_false]
        exact ⟨a, ha, by simp⟩
      simp [hall]
  · simp only [detectModelSwitches, hkey]
    apply filterMap_eq_nil_of
    intro c hc
    rw [mapGet_keyed_self agents hnd c hc]
    simp
  · simp only [calculateTokenDeltas, hkey]
    apply filterMap_eq_nil_of
    intro c hc
    rw [mapGet_keyed_self agents hnd c hc]
    simp
  · simp only [getToolUsage]
    constructor
    · intro hnil a ha
      by_contra hne
      rcases List.exists_mem_of_ne_nil a.toolsUsed hne with ⟨t, ht⟩
      have hmem : ({ agentId := a.agentId, toolName := t,
                     callCount := 1, lastUsed := now } : ToolUsage)
          ∈ agents.flatMap (fun state => state.toolsUsed.map (fun toolName =>
              { agentId := state.agentId, toolName := toolName,
                callCount := 1, lastUsed := now })) := by
        rw [List.mem_flatMap]
        exact ⟨a, ha, List.mem_map.mpr ⟨t, ht, rfl⟩⟩
      rw [hnil] at hmem
      cases hmem
    · intro hall
      apply List.flatMap_eq_nil_iff.mpr
      intro a ha
      rw [hall a ha]
      rfl

/-- C1 witness: a concrete one-agent snapshot with no accumulated tools. -/
theorem detect_self_spec_witness :
    detectStateChanges (buildPrevMap [mkTestAgent "k2p5"])
        [mkTestAgent "k2p5"] "t" = []
    ∧ detectModelSwitches (buildPrevMap [mkTestAgent "k2p5"])
        [mkTestAgent "k2p5"] "t" = []
    ∧ calculateTokenDeltas (buildPrevMap [mkTestAgent "k2p5"])
        [mkTestAgent "k2p5"] "t" = []
    ∧ (getToolUsage [mkTestAgent "k2p5"] "t" = []
        ↔ ∀ a ∈ [mkTestAgent "k2p5"], a.toolsUsed = []) :=
  detect_self_spec [mkTestAgent "k2p5"] "t" (by simp)

/-! ## C8 — ended-agent detection and suppression -/

/-- C8: an agent present in the previous snapshot but absent from the
current one yields exactly one lifecycle change to `ended` carrying its
previous status — unless that status was already `ended`, in which case
no lifecycle change is emitted for it. -/
theorem endedAgent_suppression (prevAgents currAgents : List AgentState)
    (now : String) (p : AgentState)
    (hnd : (prevAgents.map (fun a => a.agentId)).Nodup)
    (hp : p ∈ prevAgents)
    (habs : ∀ c ∈ currAgents, c.agentId ≠ p.agentId) :
    (detectStateChanges (buildPrevMap prevAgents) currAgents now).filter
        (fun ch => ch.agentId == p.agentId)
      = if p.status = .ended then []
        else [{ agentId := p.agentId, previousState := some p.status,
                currentState := .ended, timestamp := now }] := by
  simp only [detectStateChanges, buildPrevMap_eq_keyed prevAgents hnd]
  rw [List.filter_append]
  apply append_left_nil_eq
  · rw [filter_filterMap_comm]
    apply filterMap_eq_nil_of
    intro c hc
    have hne : (c.agentId == p.agentId) = false := by
      simpa using habs c hc
    cases hm : mapGet (prevAgents.map fun a => (a.agentId, a)) c.agentId with
    | none => simp [hne]
    | some q => by_cases hq : q.status = c.status <;> simp [hm, hq, hne]
  · rw [filter_filterMap_comm]
    have hnd2 : ((prevAgents.map fun a => (a.agentId, a)).map
        (fun e => e.fst)).Nodup := by
      rw [List.map_map]
      simpa [Function.comp] using hnd
    refine Eq.trans (filterMap_eq_of_unique_key (fun e => e.fst) _
      (prevAgents.map fun a => (a.agentId, a)) hnd2 (p.agentId, p)
      (List.mem_map_of_mem _ hp) ?_) ?_
    · intro q hq hne
      rcases List.mem_map.mp hq with ⟨b, _, rfl⟩
      have hneb : (b.agentId == p.agentId) = false := by
        simpa using hne
      split_ifs <;> simp [hne, hneb]
    · have hall : (currAgents.all fun s => !(s.agentId == p.agentId)) = true :=
        List.all_eq_true.mpr (fun c hc => by simpa using habs c hc)
      by_cases hps : p.status = AgentStatus.ended
      · simp [hall, hps]
      · have hpsb : (p.status == AgentStatus.ended) = false := by
          simpa using hps
        simp [hall, hpsb, hps]

/-- C8 witness: a disappeared idle agent yields exactly one ended change;
a disappeared already-ended agent yields none. -/
theorem endedAgent_suppression_witness :
    (detectStateChanges
        (buildPrevMap [{ mkTestAgent "k2p5" with status := .idle }]) [] "t").filter
        (fun ch => ch.agentId == "agent:test-agent")
      = [{ agentId := "agent:test-agent", previousState := some .idle,
           currentState := .ended, timestamp := "t" }]
    ∧ (detectStateChanges
        (buildPrevMap [{ mkTestAgent "k2p5" with status := .ended }]) [] "t").filter
        (fun ch => ch.agentId == "agent:test-agent")
      = [] := by
  constructor
  · have h := endedAgent_suppression [{ mkTestAgent "k2p5" with status := .idle }]
      [] "t" { mkTestAgent "k2p5" with status := .idle } (by simp) (by simp)
      (fun c hc => absurd hc (List.not_mem_nil c))
    simpa using h
  · have h := endedAgent_suppression [{ mkTestAgent "k2p5" with status := .ended }]
      [] "t" { mkTestAgent "k2p5" with status := .ended } (by simp) (by simp)
      (fun c hc => absurd hc (List.not_mem_nil c))
    simpa using h

/-! ## C9 — token delta emission and suppression -/

/-- C9: for an agent present in both snapshots, a token delta is emitted
exactly when the totals differ, and its `delta` field is the signed
difference. -/
theorem tokenDelta_spec (prevAgents currAgents : List AgentState)
    (now : String) (p c : AgentState)
    (hndp : (prevAgents.map (fun a => a.agentId)).Nodup)
    (hndc : (currAgents.map (fun a => a.agentId)).Nodup)
    (hp : p ∈ prevAgents) (hc : c ∈ currAgents)
    (hid : c.agentId = p.agentId) :
    (calculateTokenDeltas (buildPrevMap prevAgents) currAgents now).filter
        (fun d => d.agentId == c.agentId)
      = if c.totalTokens = p.totalTokens then []
        else [{ agentId := c.agentId, previousTokens := p.totalTokens,
                currentTokens := c.totalTokens,
                delta := c.totalTokens - p.totalTokens, timestamp := now }] := by
  simp only [calculateTokenDeltas, buildPrevMap_eq_keyed prevAgents hndp]
  rw [filter_filterMap_comm]
  refine Eq.trans (filterMap_eq_of_unique_key (fun a => a.agentId) _
    currAgents hndc c hc ?_) ?_
  · intro q hq hne
    have hneb : (q.agentId == c.agentId) = false := by
      simpa using hne
    cases hm : mapGet (prevAgents.map fun a => (a.agentId, a)) q.agentId with
    | none => simp [hm]
    | some r =>
      by_cases hz : q.totalTokens - r.totalTokens ≠ 0 <;> simp [hm, hz, hneb]
  · have hget : mapGet (prevAgents.map fun a => (a.agentId, a)) c.agentId
        = some p := by
      rw [hid]
      exact mapGet_keyed_self prevAgents hndp p hp
    rw [hget]
    by_cases ht : c.totalTokens = p.totalTokens
    · simp [ht]
    · have hnz : c.totalTokens - p.totalTokens ≠ 0 := sub_ne_zero.mpr ht
      simp [ht, hnz]

/-- C9 witness: 1000→1500 yields exactly one +500 delta; 1000→1000 yields
none. -/
theorem tokenDelta_spec_witness :
    (calculateTokenDeltas (buildPrevMap [mkTestAgent "k2p5"])
        [{ mkTestAgent "k2p5" with totalTokens := 1500 }] "t").filter
        (fun d => d.agentId == "agent:test-agent")
      = [{ agentId := "agent:test-agent", previousTokens := 1000,
           currentTokens := 1500, delta := 500, timestamp := "t" }]
    ∧ (calculateTokenDeltas (buildPrevMap [mkTestAgent "k2p5"])
        [mkTestAgent "k2p5"] "t").filter
        (fun d => d.agentId == "agent:test-agent")
      = [] := by
  constructor
  · have h := tokenDelta_spec [mkTestAgent "k2p5"]
      [{ mkTestAgent "k2p5" with totalTokens := 1500 }] "t"
      (mkTestAgent "k2p5") { mkTestAgent "k2p5" with totalTokens := 1500 }
      (by simp) (by simp) (by simp) (by simp) rfl
    simpa using h
  · have h := tokenDelta_spec [mkTestAgent "k2p5"] [mkTestAgent "k2p5"] "t"
      (mkTestAgent "k2p5") (mkTestAgent "k2p5")
      (by simp) (by simp) (by simp) (by simp) rfl
    simpa using h

/-! ## C6 — bounded most-recent event buffer -/

theorem foldl_pushEvent_eq_drop (es : List AgentEvent) :
    es.foldl pushEvent [] = es.drop (es.length - MAX_EVENTS) := by
  induction es using List.reverseRecOn with
  | nil => rfl
  | append_singleton xs x ih =>
    rw [List.foldl_append, List.foldl_cons, List.foldl_nil, ih]
    simp only [pushEvent]
    by_cases hn : xs.length < MAX_EVENTS
    · have h0 : xs.length - MAX_EVENTS = 0 := by omega
      have h1 : xs.length + 1 - MAX_EVENTS = 0 := by omega
      simp [h0, h1]
    · have hM : 1 ≤ MAX_EVENTS := by decide
      have hlen : (xs.drop (xs.length - MAX_EVENTS)).length = MAX_EVENTS := by
        rw [List.length_drop]
        omega
      have hdroplen : (xs.drop (xs.length - MAX_EVENTS) ++ [x]).length
          - MAX_EVENTS = 1 := by
        rw [List.length_append, hlen]
        simp
      rw [hdroplen,
        List.drop_append_of_le_length (by rw [hlen]; exact hM),
        List.drop_drop,
        List.drop_append_of_le_length (by simp; omega),
        List.length_append]
      have harith : xs.length - MAX_EVENTS + 1
          = xs.length + [x].length - MAX_EVENTS := by
        simp
        omega
      rw [harith]

/-- C6: the retained event buffer is always exactly the most recent
`MAX_EVENTS` (100) accepted events in arrival order — hence holds at most
100 events — and feeding 150 sequential events retains exactly the last
100 in order. -/
theorem eventBuffer_spec :
    (∀ es : List AgentEvent,
      es.foldl pushEvent [] = es.drop (es.length - MAX_EVENTS))
    ∧ (∀ es : List AgentEvent,
      (es.foldl pushEvent []).length ≤ MAX_EVENTS)
    ∧ ((List.range 150).map sampleEvent).foldl pushEvent []
        = ((List.range 150).map sampleEvent).drop 50 := by
  refine ⟨foldl_pushEvent_eq_drop, ?_, ?_⟩
  · intro es
    rw [foldl_pushEvent_eq_drop, List.length_drop]
    omega
  · rw [foldl_pushEvent_eq_drop]
    simp [MAX_EVENTS]

/-! ## C7 — inbound frame validation -/

/-- C7 counterexample: a frame that is valid JSON with a string
`timestamp`, a string `agentId`, a closed-set `eventType` and an object
`payload` — satisfying the claim's acceptance condition — is nevertheless
rejected, because its `timestamp` is the empty string and `!parsed.timestamp`
rejects every falsy value. -/
theorem parseMessage_spec_counterexample :
    specAccepts (some emptyTimestampFrame) = true
    ∧ parseMessage (some emptyTimestampFrame) = none :=
  ⟨rfl, rfl⟩

/-- C7 (amended): a frame is accepted exactly when it is valid JSON whose
`timestamp` and `agentId` are non-empty strings, whose `eventType` is
drawn from the fixed closed set, and whose `payload` is truthy with JS
typeof "object" (a JSON object or array); every rejected frame leaves the
client state — retained buffer and ClientActivityView — unchanged (the
embedding is total, so no exception escapes the fold step). -/
theorem parseMessage_amended_spec (d : Option Json) (st : ClientState) :
    ((parseMessage d).isSome = amendedAccept d)
    ∧ (parseMessage d = none → handleMessage st d = st) := by
  constructor
  · cases d with
    | none => rfl
    | some parsed =>
      simp only [parseMessage, amendedAccept]
      cases hf : frameFields parsed with
      | none => rfl
      | some quad =>
        obtain ⟨ts, aid, et, pl⟩ := quad
        cases hts : ts == "" <;> cases haid : aid == "" <;>
          cases het : et == "" <;>
          cases htruthy : truthy pl <;>
          cases htype : typeofStr pl == "object" <;>
          cases hety : toEventType et <;>
          simp [hts, haid, het, htruthy, htype, hety, bne]
        have hete : et = "" := by simpa using het
        subst hete
        simp [toEventType] at hety
  · intro h
    unfold handleMessage
    rw [h]

/-- C7 witness: the spec's malformed-frame fixture (missing `agentId`) is
rejected and leaves a concrete client state unchanged. -/
theorem parseMessage_amended_spec_witness :
    amendedAccept (some missingAgentIdFrame) = false
    ∧ handleMessage emptyClientState (some missingAgentIdFrame)
        = emptyClientState :=
  ⟨rfl, (parseMessage_amended_spec (some missingAgentIdFrame)
    emptyClientState).2 rfl⟩

end AgentViz
